import Mathlib

/-!
Verification of the `call_compartments` CLI command (cooltools).

This file shallowly embeds `cooltools/cli/call_compartments.py`: the command
loads a cooler matrix, optionally parses a reference ("phasing") track file
and left-merges it onto the cooler's bin table, resolves analysis regions,
dispatches to one of two eigen-decomposition routines, and writes the
resulting tables to output files.

External collaborators are modelled only as far as the command observes them:
pandas `read_table` column selection, pandas `merge(how="left")`, pandas
`unique`, Python `dict` literals and list indexing, and
`bioframe.parse_regions`.  The numerical module `eigdecomp` is not part of
the supplied source; following its documented contract, a run only records
which routine was invoked with which arguments.
-/

namespace CallCompartments

/-- Pandas column dtypes requested by the track loader
(`str`, `np.int64`, `np.float64`). -/
inductive Dtype where
  | str
  | int64
  | float64
  deriving DecidableEq, Repr

/-- Column selector produced by the `TabularFilePath` click parameter type:
either a 0-based integer index or a column name. -/
inductive ColSel where
  | idx (i : Int)
  | name (s : String)
  deriving DecidableEq, Repr

/-- Errors the command can raise: `click.BadParameter`, `NotImplementedError`
and `ValueError`, each carrying its message. -/
inductive CliError where
  | badParameter (msg : String)
  | notImplemented (msg : String)
  | valueError (msg : String)
  deriving DecidableEq, Repr

/-- Keyword arguments assembled for `pd.read_table`: either
`header=None, usecols=[0,1,2,col], names=[...]` (headerless file) or
`header="infer", usecols=["chrom","start","end",track_name]`. -/
structure ReadKwargs where
  headerNone : Bool
  usecolsIdx : List Int
  usecolsNames : List String
  names : List String
  deriving DecidableEq, Repr

/-- Python list indexing `l[i]`: non-negative indices count from the front,
negative indices count from the back, anything else raises `IndexError`
(represented as `none`). -/
def pyGet (l : List String) (i : Int) : Option String :=
  if 0 ≤ i then l.get? i.toNat
  else if -i ≤ (l.length : Int) then l.get? (l.length - (-i).toNat)
  else none

/-- Embedding of the header/column validation in `call_compartments`
(the `sniff_for_header` result is the `names?` argument): with no header,
only integer selectors are accepted; with a header, an integer selector is
resolved by Python list indexing and a name selector must occur in the
header.  On success it returns the resolved track column name together with
the `pd.read_table` keyword arguments the source builds. -/
def resolveTrack (names? : Option (List String)) (col : ColSel) :
    Except CliError (String × ReadKwargs) :=
  match names? with
  | none =>
    match col with
    | .name s =>
      .error (.badParameter
        ("No header found. Cannot find " ++ s ++ " column without a header."))
    | .idx i =>
      .ok ("ref",
        { headerNone := true, usecolsIdx := [0, 1, 2, i], usecolsNames := [],
          names := ["chrom", "start", "end", "ref"] })
  | some names =>
    match col with
    | .idx i =>
      match pyGet names i with
      | none =>
        .error (.badParameter
          ("Column " ++ toString i ++ " not compatible with header "
            ++ String.intercalate "," names ++ "."))
      | some s =>
        .ok (s,
          { headerNone := false, usecolsIdx := [],
            usecolsNames := ["chrom", "start", "end", s], names := [] })
    | .name s =>
      if s ∈ names then
        .ok (s,
          { headerNone := false, usecolsIdx := [],
            usecolsNames := ["chrom", "start", "end", s], names := [] })
      else
        .error (.badParameter
          ("Column " ++ s ++ " not found in header "
            ++ String.intercalate "," names))

/-- Python `dict` literal built from an association list: a later entry with
the same key overwrites an earlier one, so lookup scans from the end. -/
def pyDictLookup (d : List (String × Dtype)) (k : String) : Option Dtype :=
  d.reverse.lookup k

/-- The `dtype` dictionary literal passed to `pd.read_table`; when
`tname` collides with a coordinate column the later entry wins, exactly as in
a Python dict literal. -/
def trackDtypes (tname : String) : List (String × Dtype) :=
  [("chrom", .str), ("start", .int64), ("end", .int64), (tname, .float64)]

/-- First-occurrence deduplication, the semantics of `pandas.unique` on a
column: keeps the first occurrence of every value, in order. -/
def uniqueList {α : Type} [DecidableEq α] : List α → List α
  | [] => []
  | x :: xs => x :: (uniqueList xs).filter (fun y => decide (y ≠ x))

/-- Insertion into a sorted list of column positions. -/
def insertSorted (i : Int) : List Int → List Int
  | [] => [i]
  | j :: l => if i ≤ j then i :: j :: l else j :: insertSorted i l

/-- Sorted set of column positions: pandas treats an integer `usecols` as a
set and selects the corresponding columns in file order. -/
def sortedUnique (l : List Int) : List Int :=
  (uniqueList l).foldr insertSorted []

/-- Modelled pandas `read_table` column selection for a file whose header row
supplies the column names: `usecols` given as names must all occur among the
columns, acts as a set, and the selected columns are returned in file order;
the `dtype` mapping assigns each selected column its requested type (`none`
means pandas infers the type). -/
def readSchemaHeader (fileNames usecols : List String)
    (dtype : List (String × Dtype)) :
    Except CliError (List (String × Option Dtype)) :=
  if usecols.all (fun c => fileNames.contains c) then
    .ok ((fileNames.filter (fun c => usecols.contains c)).map
      (fun c => (c, pyDictLookup dtype c)))
  else
    .error (.valueError "Usecols do not match columns")

/-- Modelled pandas `read_table` column selection for `header=None` with
positional `usecols` and explicit `names`: positions act as a set and must be
in range; `names` must label either exactly the selected columns (in
ascending position order) or all columns of the file. -/
def readSchemaNoHeader (fileWidth : Nat) (usecols : List Int)
    (names : List String) (dtype : List (String × Dtype)) :
    Except CliError (List (String × Option Dtype)) :=
  let pos := sortedUnique usecols
  if pos.any (fun i => decide (i < 0) || decide ((fileWidth : Int) ≤ i)) then
    .error (.valueError "Usecols out of bounds for the file")
  else if names.length = pos.length then
    .ok (names.map (fun c => (c, pyDictLookup dtype c)))
  else if names.length = fileWidth then
    .ok (pos.map (fun i =>
      ((names.getD i.toNat ""), pyDictLookup dtype (names.getD i.toNat ""))))
  else
    .error (.valueError "Number of passed names did not match usecols")

/-- The reference-track loader: header/column validation followed by the
modelled `pd.read_table`, returning the resolved track column name and the
schema (column names with their dtypes) of the parsed table.  `sniffed` is
the header found by `sniff_for_header` (if any) and `fileWidth` the file's
column count. -/
def loadTrackSchema (sniffed : Option (List String)) (fileWidth : Nat)
    (col : ColSel) :
    Except CliError (String × List (String × Option Dtype)) :=
  match resolveTrack sniffed col with
  | .error e => .error e
  | .ok (tname, kw) =>
    if kw.headerNone then
      match readSchemaNoHeader fileWidth kw.usecolsIdx kw.names
          (trackDtypes tname) with
      | .error e => .error e
      | .ok sch => .ok (tname, sch)
    else
      match readSchemaHeader (sniffed.getD []) kw.usecolsNames
          (trackDtypes tname) with
      | .error e => .error e
      | .ok sch => .ok (tname, sch)

/-- Genomic bin coordinates, the `(chrom, start, end)` key of the cooler bin
table and of a track row. -/
structure BinKey where
  chrom : String
  start : Int
  end_ : Int
  deriving DecidableEq, Repr

/-- Pandas `merge(left=bins, right=track, how="left", on=[chrom,start,end])`:
left rows are kept in order; a left row is emitted once per matching right
row (in right order), or once with a missing value when nothing matches.
Duplicate keys on the right therefore duplicate the left row. -/
def mergeLeft {V : Type} (bins : List BinKey) (track : List (BinKey × V)) :
    List (BinKey × Option V) :=
  bins.flatMap (fun b =>
    let hits := track.filter (fun r => decide (r.1 = b))
    if hits.isEmpty then [(b, none)] else hits.map (fun r => (b, some r.2)))

/-- The merge-and-sanity-check step of `call_compartments`: the source
constructs a `ValueError` when the merged table is longer than the bin table
but never raises it (the expression's value is discarded), so the step always
returns the merged table. -/
def mergeTrackWithBins {V : Type} (bins : List BinKey)
    (trackRows : List (BinKey × V)) :
    Except CliError (List (BinKey × Option V)) :=
  let track := mergeLeft bins trackRows
  let _unraised : Option CliError :=
    if bins.length < track.length then
      some (.valueError
        "There is something in the track that couldnt be merged with cooler-bins")
    else none
  .ok track

/-- The `--contact-type` choice. -/
inductive ContactType where
  | cis
  | trans
  deriving DecidableEq, Repr

/-- String form of the contact type, used in output file names. -/
def contactTypeStr : ContactType → String
  | .cis => "cis"
  | .trans => "trans"

/-- One row of a regions table: chromosome, interval and optional name. -/
structure RegionRow where
  chrom : String
  start : Int
  end_ : Int
  name : Option String
  deriving DecidableEq, Repr

/-- A user-supplied `--regions` file as parsed by
`pd.read_csv(sep="\t", header=None)`: its column count (`shape[1]`) and its
rows. -/
structure RegionsFile where
  ncols : Nat
  rows : List RegionRow
  deriving DecidableEq, Repr

/-- A `--reference-track` argument: the sniffed header (if any), the file's
column count, the column selector, and the parsed `(chrom, start, end, value)`
rows of the selected column. -/
structure TrackSpec (V : Type) where
  sniffedHeader : Option (List String)
  fileWidth : Nat
  col : ColSel
  rows : List (BinKey × V)
  deriving DecidableEq, Repr

/-- The cooler file as the command observes it: its bin table keys and its
chromosome sizes. -/
structure CoolerData where
  bins : List BinKey
  chromsizes : String → Int

/-- The full argument set of the `call_compartments` command. -/
structure Args (V : Type) where
  cool : CoolerData
  referenceTrack : Option (TrackSpec V)
  regions : Option RegionsFile
  contactType : ContactType
  nEigs : Nat
  verbose : Bool
  outPref : String
  bigwig : Bool

/-- The `track` variable of the source: either the bare bin table (no
reference track supplied) or the bin table left-merged with the track values. -/
inductive TrackTable (V : Type) where
  | bare (rows : List BinKey)
  | merged (rows : List (BinKey × Option V))
  deriving DecidableEq, Repr

/-- The `chrom` column of the track table. -/
def trackChromsList {V : Type} : TrackTable V → List String
  | .bare rows => rows.map BinKey.chrom
  | .merged rows => rows.map (fun r => r.1.chrom)

/-- Modelled `bioframe.parse_regions(names, chromsizes)`: every chromosome
name becomes the full-chromosome region `[0, size)` with no name. -/
def parseRegionsNames (chroms : List String) (chromsizes : String → Int) :
    List RegionRow :=
  chroms.map (fun c => { chrom := c, start := 0, end_ := chromsizes c, name := none })

/-- Region resolution when no `--regions` file is given: full chromosomes for
the chromosomes mentioned in the track, then the name column is set to the
chromosome. -/
def defaultRegions (trackChroms : List String) (chromsizes : String → Int) :
    List RegionRow :=
  (parseRegionsNames trackChroms chromsizes).map
    (fun r => { r with name := some r.chrom })

/-- Which eigen-decomposition routine the command invoked and with which
arguments (`eigdecomp` itself is outside the supplied source; its contract is
to return an eigenvalue and an eigenvector table). -/
inductive EigCall (V : Type) where
  | cisCall (track : TrackTable V) (regions : List RegionRow) (nEigs : Nat)
      (phasingTrackCol : Option String)
  | transCall (track : TrackTable V) (nEigs : Nat)
      (phasingTrackCol : Option String)
  deriving DecidableEq, Repr

/-- The track table passed to the eigen-decomposition routine. -/
def EigCall.track {V : Type} : EigCall V → TrackTable V
  | .cisCall t _ _ _ => t
  | .transCall t _ _ => t

/-- Observable outcome of a successful run: the eigen-decomposition call, the
resolved regions table, and the names of the files written. -/
structure RunResult (V : Type) where
  call : EigCall V
  cisRegionsTable : List RegionRow
  files : List String
  deriving DecidableEq, Repr

/-- The track-loading stage: without `--reference-track` the bare cooler bin
table is used; otherwise the track file is parsed (which can raise) and
left-merged onto the bin table. -/
def loadStage {V : Type} (a : Args V) :
    Except CliError (TrackTable V × Option String) :=
  match a.referenceTrack with
  | none => .ok (.bare a.cool.bins, none)
  | some t =>
    match loadTrackSchema t.sniffedHeader t.fileWidth t.col with
    | .error e => .error e
    | .ok (tname, _) =>
      match mergeTrackWithBins a.cool.bins t.rows with
      | .error e => .error e
      | .ok merged => .ok (.merged merged, some tname)

/-- Message of the `NotImplementedError` raised for `--regions` with trans
contacts. -/
def regionsTransMsg : String := "Regions not yet supported with trans contact type"

/-- Message of the `ValueError` raised for a regions file whose column count
is neither three nor four. -/
def regionsNcolsMsg : String :=
  "The region file does not have three or four tab-delimited columns."
    ++ "We expect a bed file with columns chrom, start, end, and optional name"

/-- The region-resolution stage: without `--regions`, full chromosomes of the
track; with `--regions`, trans contacts are rejected, the file must have
three or four columns (a fourth column is kept as the region name), the
table passes through `bioframe.parse_regions` (modelled as row-preserving
normalization) and is filtered to chromosomes present in the track. -/
def regionsStage {V : Type} (a : Args V) (track : TrackTable V) :
    Except CliError (List RegionRow) :=
  match a.regions with
  | none =>
    .ok (defaultRegions (uniqueList (trackChromsList track)) a.cool.chromsizes)
  | some rf =>
    if a.contactType = .trans then
      .error (.notImplemented regionsTransMsg)
    else if rf.ncols ≠ 3 ∧ rf.ncols ≠ 4 then
      .error (.valueError regionsNcolsMsg)
    else
      let rows := if rf.ncols = 4 then rf.rows
        else rf.rows.map (fun r => { r with name := none })
      let trackChroms := uniqueList (trackChromsList track)
      .ok (rows.filter (fun r => trackChroms.contains r.chrom))

/-- Names of the files the output stage writes: the eigenvalue table, the
eigenvector table, and (with `--bigwig`) the bigWig track. -/
def outFiles {V : Type} (a : Args V) : List String :=
  let ct := contactTypeStr a.contactType
  [a.outPref ++ "." ++ ct ++ ".lam.txt", a.outPref ++ "." ++ ct ++ ".vecs.tsv"]
    ++ (if a.bigwig then [a.outPref ++ "." ++ ct ++ ".bw"] else [])

/-- The analysis dispatch and output stage: cis calls
`eigdecomp.cooler_cis_eig` with the regions table, trans calls
`eigdecomp.cooler_trans_eig` without it; both then write the output files. -/
def dispatch {V : Type} (a : Args V) (track : TrackTable V)
    (tname : Option String) (rtbl : List RegionRow) : RunResult V :=
  match a.contactType with
  | .cis => { call := .cisCall track rtbl a.nEigs tname,
              cisRegionsTable := rtbl, files := outFiles a }
  | .trans => { call := .transCall track a.nEigs tname,
                cisRegionsTable := rtbl, files := outFiles a }

/-- The whole `call_compartments` command: load and merge the track, resolve
regions, dispatch to the eigen-decomposition routine and write outputs. -/
def run {V : Type} (a : Args V) : Except CliError (RunResult V) :=
  match loadStage a with
  | .error e => .error e
  | .ok (track, tname) =>
    match regionsStage a track with
    | .error e => .error e
    | .ok rtbl => .ok (dispatch a track tname rtbl)

/-- Whether an `Except` value is a success. -/
def exceptOk {ε α : Type} : Except ε α → Bool
  | .ok _ => true
  | .error _ => false

/-- Whether the reference-track stage of a run succeeds (vacuously true when
no reference track is supplied). -/
def trackLoadSucceeds {V : Type} (a : Args V) : Bool :=
  match a.referenceTrack with
  | none => true
  | some t => exceptOk (loadTrackSchema t.sniffedHeader t.fileWidth t.col)

/-! ### Basic lemmas about the embedded operations -/

theorem mem_uniqueList {α : Type} [DecidableEq α] (l : List α) (a : α) :
    a ∈ uniqueList l ↔ a ∈ l := by
  induction l with
  | nil => simp [uniqueList]
  | cons x xs ih =>
    by_cases h : a = x
    · simp [uniqueList, h]
    · simp [uniqueList, List.mem_filter, ih, h]

theorem nodup_uniqueList {α : Type} [DecidableEq α] (l : List α) :
    (uniqueList l).Nodup := by
  induction l with
  | nil => simp [uniqueList]
  | cons x xs ih =>
    refine List.Nodup.cons ?_ (ih.filter _)
    simp [List.mem_filter]

theorem length_filter_key_le_one {V : Type} (track : List (BinKey × V))
    (h : (track.map Prod.fst).Nodup) (b : BinKey) :
    (track.filter (fun r => decide (r.1 = b))).length ≤ 1 := by
  induction track with
  | nil => simp
  | cons r t ih =>
    simp only [List.map_cons, List.nodup_cons] at h
    by_cases hb : r.1 = b
    · have ht : t.filter (fun r => decide (r.1 = b)) = [] := by
        refine List.filter_eq_nil_iff.mpr ?_
        intro r' hr'
        simp only [decide_eq_true_eq]
        intro he
        exact h.1 ((hb ▸ he ▸ rfl : r.1 = r'.1) ▸ List.mem_map_of_mem Prod.fst hr')
      simp [List.filter_cons, hb, ht]
    · simpa [List.filter_cons, hb] using ih h.2

theorem mergeLeft_length_eq {V : Type} (bins : List BinKey)
    (track : List (BinKey × V)) (h : (track.map Prod.fst).Nodup) :
    (mergeLeft bins track).length = bins.length := by
  induction bins with
  | nil => rfl
  | cons b bs ih =>
    have hone : (if (track.filter (fun r => decide (r.1 = b))).isEmpty then
          [(b, (none : Option V))]
        else (track.filter (fun r => decide (r.1 = b))).map
          (fun r => (b, some r.2))).length = 1 := by
      by_cases he : (track.filter (fun r => decide (r.1 = b))).isEmpty
      · simp [he]
      · rw [if_neg (by simp [he]), List.length_map]
        have h1 := length_filter_key_le_one track h b
        have h0 : (track.filter (fun r => decide (r.1 = b))) ≠ [] := by
          simpa [List.isEmpty_iff] using he
        have h0' : 0 < (track.filter (fun r => decide (r.1 = b))).length :=
          List.length_pos.mpr h0
        omega
    simp only [mergeLeft] at ih ⊢
    rw [List.flatMap_cons, List.length_append, hone, ih, List.length_cons,
      Nat.add_comm]

/-! ### C1: size of the left-merged track/bin table -/

/-- C1, counterexample: the claim says the left-merged track/bin table never
has more rows than the cooler bin table.  It is false: a track file holding
the same `(chrom, start, end)` row twice makes the left merge emit the
matching bin twice, so one bin yields two merged rows. -/
theorem merged_rows_can_exceed_bins :
    ¬ ((mergeLeft [⟨"chr1", 0, 100⟩]
        [(⟨"chr1", 0, 100⟩, (1 : Int)), (⟨"chr1", 0, 100⟩, (2 : Int))]).length
      ≤ ([⟨"chr1", 0, 100⟩] : List BinKey).length) := by
  decide

/-- C1 (amended): provided the track file contains no two rows with the same
`(chrom, start, end)` triple, the left-merged track/bin table has exactly as
many rows as — in particular never more rows than — the cooler bin table. -/
theorem merged_rows_le_bins_of_unique_track {V : Type} (bins : List BinKey)
    (track : List (BinKey × V)) (h : (track.map Prod.fst).Nodup) :
    (mergeLeft bins track).length ≤ bins.length :=
  le_of_eq (mergeLeft_length_eq bins track h)

/-- C1, witness for the amended theorem at a concrete duplicate-free track. -/
theorem merged_rows_le_bins_witness :
    (mergeLeft [⟨"chr1", 0, 100⟩, ⟨"chr1", 100, 200⟩]
      [(⟨"chr1", 0, 100⟩, (1 : Int)), (⟨"chr2", 0, 100⟩, (2 : Int))]).length
      ≤ ([⟨"chr1", 0, 100⟩, ⟨"chr1", 100, 200⟩] : List BinKey).length :=
  merged_rows_le_bins_of_unique_track _ _ (by decide)

/-! ### C2: the merge-mismatch check is dead code -/

/-- C2: when the merged table has more rows than the bin table, the
`ValueError` is only constructed, never raised: the track stage still
succeeds, handing the merged table on unchanged to region resolution and the
analysis dispatch. -/
theorem merge_mismatch_error_never_raised {V : Type} (a : Args V)
    (t : TrackSpec V) (tname : String) (sch : List (String × Option Dtype))
    (h1 : a.referenceTrack = some t)
    (h2 : loadTrackSchema t.sniffedHeader t.fileWidth t.col = .ok (tname, sch))
    (h3 : a.cool.bins.length < (mergeLeft a.cool.bins t.rows).length) :
    mergeTrackWithBins a.cool.bins t.rows = .ok (mergeLeft a.cool.bins t.rows)
      ∧ loadStage a = .ok (.merged (mergeLeft a.cool.bins t.rows), some tname) := by
  refine ⟨rfl, ?_⟩
  simp [loadStage, h1, h2, mergeTrackWithBins]

/-- Concrete duplicate-keyed track argument used to witness the dead
merge-mismatch check. -/
def dupTrackSpec : TrackSpec Int :=
  { sniffedHeader := none, fileWidth := 5, col := .idx 3,
    rows := [(⟨"chrX", 5, 6⟩, 7), (⟨"chrX", 5, 6⟩, 8)] }

/-- Concrete argument set whose track file repeats a coordinate row. -/
def dupTrackArgs : Args Int :=
  { cool := { bins := [⟨"chrX", 5, 6⟩], chromsizes := fun _ => 10 },
    referenceTrack := some dupTrackSpec,
    regions := none, contactType := .cis, nEigs := 3, verbose := false,
    outPref := "o", bigwig := false }

/-- C2, witness: a concrete run whose track has a duplicated coordinate row,
so the merged table (length two) is longer than the bin table (length one);
the stage still succeeds with the expanded merge. -/
theorem merge_mismatch_witness :
    mergeTrackWithBins dupTrackArgs.cool.bins dupTrackSpec.rows
      = .ok (mergeLeft dupTrackArgs.cool.bins dupTrackSpec.rows) :=
  (merge_mismatch_error_never_raised dupTrackArgs dupTrackSpec "ref"
    [("chrom", some .str), ("start", some .int64), ("end", some .int64),
      ("ref", some .float64)]
    rfl rfl (by decide)).1

/-! ### C4, C5, C10: header/column validation of the track loader -/

theorem pyGet_mem {l : List String} {i : Int} {s : String}
    (h : pyGet l i = some s) : s ∈ l := by
  unfold pyGet at h
  split at h
  · exact List.get?_mem h
  · split at h
    · exact List.get?_mem h
    · exact absurd h (by simp)

/-- C4: for a headerless track file every integer column selector passes
validation — the built `read_table` arguments request exactly the three
coordinate columns and the selected index — while every name selector raises
a `BadParameter` error mentioning the missing header. -/
theorem headerless_column_selection :
    (∀ i : Int, resolveTrack none (.idx i)
      = .ok ("ref",
        { headerNone := true, usecolsIdx := [0, 1, 2, i], usecolsNames := [],
          names := ["chrom", "start", "end", "ref"] }))
    ∧ (∀ s : String, resolveTrack none (.name s)
      = .error (.badParameter
        ("No header found. Cannot find " ++ s ++ " column without a header."))) :=
  ⟨fun _ => rfl, fun _ => rfl⟩

/-- C5: with a detected header, validation fails exactly when a name selector
is absent from the header or an integer selector is out of range for Python
indexing into the header; any success resolves the selector to a column name
occurring in the header. -/
theorem header_column_validation (names : List String) (col : ColSel) :
    ((∃ e, resolveTrack (some names) col = .error e)
        ↔ (match col with
           | .idx i => pyGet names i = none
           | .name s => s ∉ names))
    ∧ (∀ t kw, resolveTrack (some names) col = .ok (t, kw) → t ∈ names) := by
  constructor
  · cases col with
    | idx i =>
      cases hp : pyGet names i with
      | none => simp [resolveTrack, hp]
      | some s => simp [resolveTrack, hp]
    | name s =>
      by_cases hs : s ∈ names <;> simp [resolveTrack, hs]
  · intro t kw h
    cases col with
    | idx i =>
      cases hp : pyGet names i with
      | none => simp [resolveTrack, hp] at h
      | some s =>
        simp only [resolveTrack, hp, Except.ok.injEq, Prod.mk.injEq] at h
        exact h.1 ▸ pyGet_mem hp
    | name s =>
      by_cases hs : s ∈ names
      · simp only [resolveTrack, if_pos hs, Except.ok.injEq, Prod.mk.injEq] at h
        exact h.1 ▸ hs
      · simp [resolveTrack, if_neg hs] at h

/-- C5, witness: a concrete header in which the requested column name occurs,
so validation succeeds and resolves to a header column. -/
theorem header_column_validation_witness :
    "score" ∈ ["chrom", "start", "end", "score"] :=
  (header_column_validation ["chrom", "start", "end", "score"] (.name "score")).2
    "score"
    { headerNone := false, usecolsIdx := [],
      usecolsNames := ["chrom", "start", "end", "score"], names := [] }
    rfl

/-- C10: with a detected header of `n` columns, a negative integer selector
`i` with `-n ≤ i < 0` passes validation and resolves to the header column at
position `n + i`, per Python negative indexing; only `i < -n` raises the
out-of-range `BadParameter` error. -/
theorem negative_index_resolution (names : List String) (i : Int) :
    (i < 0 → -(names.length : Int) ≤ i →
      ∃ t kw, resolveTrack (some names) (.idx i) = .ok (t, kw)
        ∧ names.get? ((names.length : Int) + i).toNat = some t)
    ∧ (i < -(names.length : Int) →
      ∃ m, resolveTrack (some names) (.idx i) = .error (.badParameter m)) := by
  constructor
  · intro h1 h2
    have hidx : ((names.length : Int) + i).toNat = names.length - (-i).toNat := by
      omega
    have hlt : names.length - (-i).toNat < names.length := by omega
    have hp : pyGet names i = names.get? (names.length - (-i).toNat) := by
      unfold pyGet
      rw [if_neg (by omega), if_pos (by omega)]
    obtain ⟨t, ht⟩ : ∃ t, names.get? (names.length - (-i).toNat) = some t :=
      ⟨_, List.get?_eq_get hlt⟩
    have hpt : pyGet names i = some t := hp.trans ht
    refine ⟨t,
      { headerNone := false, usecolsIdx := [],
        usecolsNames := ["chrom", "start", "end", t], names := [] },
      ?_, ?_⟩
    · simp [resolveTrack, hpt]
    · rw [hidx]; exact ht
  · intro h1
    have hp : pyGet names i = none := by
      unfold pyGet
      rw [if_neg (by omega), if_neg (by omega)]
    exact ⟨"Column " ++ toString i ++ " not compatible with header "
      ++ String.intercalate "," names ++ ".", by simp [resolveTrack, hp]⟩

/-- C10, witness: in a three-column header, index `-1` resolves to the last
column while index `-4` is rejected. -/
theorem negative_index_witness :
    (∃ t kw, resolveTrack (some ["a", "b", "c"]) (.idx (-1)) = .ok (t, kw)
      ∧ ["a", "b", "c"].get? (((["a", "b", "c"] : List String).length : Int)
          + (-1)).toNat = some t)
    ∧ (∃ m, resolveTrack (some ["a", "b", "c"]) (.idx (-4))
        = .error (.badParameter m)) :=
  ⟨(negative_index_resolution ["a", "b", "c"] (-1)).1 (by decide) (by decide),
   (negative_index_resolution ["a", "b", "c"] (-4)).2 (by decide)⟩

/-! ### C6: schema of the parsed track table -/

theorem pyDictLookup_self (t : String) :
    pyDictLookup (trackDtypes t) t = some .float64 := by
  simp [pyDictLookup, trackDtypes, List.lookup]

theorem pyDictLookup_chrom {t : String} (h : t ≠ "chrom") :
    pyDictLookup (trackDtypes t) "chrom" = some .str := by
  have hb : (("chrom" : String) == t) = false := by simp [Ne.symm h]
  simp [pyDictLookup, trackDtypes, List.lookup, hb]

theorem pyDictLookup_start {t : String} (h : t ≠ "start") :
    pyDictLookup (trackDtypes t) "start" = some .int64 := by
  have hb : (("start" : String) == t) = false := by simp [Ne.symm h]
  simp [pyDictLookup, trackDtypes, List.lookup, hb]

theorem pyDictLookup_end {t : String} (h : t ≠ "end") :
    pyDictLookup (trackDtypes t) "end" = some .int64 := by
  have hb : (("end" : String) == t) = false := by simp [Ne.symm h]
  simp [pyDictLookup, trackDtypes, List.lookup, hb]

theorem resolveTrack_header_kwargs {names : List String} {col : ColSel}
    {t : String} {kw : ReadKwargs}
    (h : resolveTrack (some names) col = .ok (t, kw)) :
    kw = { headerNone := false, usecolsIdx := [],
           usecolsNames := ["chrom", "start", "end", t], names := [] } := by
  cases col with
  | idx i =>
    cases hp : pyGet names i with
    | none => simp [resolveTrack, hp] at h
    | some s =>
      simp only [resolveTrack, hp, Except.ok.injEq, Prod.mk.injEq] at h
      rw [← h.2, h.1]
  | name s =>
    by_cases hs : s ∈ names
    · simp only [resolveTrack, if_pos hs, Except.ok.injEq, Prod.mk.injEq] at h
      rw [← h.2, h.1]
    · simp [resolveTrack, if_neg hs] at h

/-- C6, counterexample: the track `(some header, column "start")` loads
successfully — the header holds the requested name — yet the parsed table has
three columns, not four: pandas treats `usecols` as a set, so the duplicated
`start` collapses, and the later `dtype` dict entry retypes `start` as float. -/
theorem coincident_column_collapses_schema :
    loadTrackSchema (some ["chrom", "start", "end", "score"]) 4 (.name "start")
      = .ok ("start", [("chrom", some Dtype.str), ("start", some Dtype.float64),
          ("end", some Dtype.int64)])
    ∧ [("chrom", some Dtype.str), ("start", some Dtype.float64),
        ("end", some Dtype.int64)].length ≠ 4 :=
  ⟨rfl, by decide⟩

theorem sortedUnique_usecols {i : Int} (h : 3 ≤ i) :
    sortedUnique [0, 1, 2, i] = [0, 1, 2, i] := by
  have h0 : i ≠ 0 := by omega
  have h1 : i ≠ 1 := by omega
  have h2 : i ≠ 2 := by omega
  have e1 : uniqueList [(0 : Int), 1, 2, i] = [0, 1, 2, i] := by
    simp [uniqueList, h0, h1, h2]
  rw [sortedUnique, e1]
  simp [insertSorted, show (2 : Int) ≤ i from by omega]

theorem headerless_schema {i : Int} {w : Nat} (h3 : 3 ≤ i) (hw : i < (w : Int)) :
    readSchemaNoHeader w [0, 1, 2, i] ["chrom", "start", "end", "ref"]
        (trackDtypes "ref")
      = .ok [("chrom", some Dtype.str), ("start", some Dtype.int64),
          ("end", some Dtype.int64), ("ref", some Dtype.float64)] := by
  have hcond : (([0, 1, 2, i] : List Int).any
      (fun j => decide (j < 0) || decide ((w : Int) ≤ j))) = false := by
    simp only [List.any_cons, List.any_nil, Bool.or_false,
      Bool.or_eq_false_iff, decide_eq_false_iff_not, not_lt, not_le]
    omega
  rw [readSchemaNoHeader]
  rw [sortedUnique_usecols h3]
  rw [if_neg (by simp [hcond]),
    if_pos (show (["chrom", "start", "end", "ref"] : List String).length
      = ([0, 1, 2, i] : List Int).length by simp)]
  rfl

/-- C6 (amended): when the resolved track column differs from the coordinate
columns, the successfully parsed table has exactly the four columns `chrom`,
`start`, `end` and the value column, typed string, int64, int64 and float64
(stated up to column order, which pandas takes from the file; the file's
header is assumed free of duplicate names).  When the requested column
coincides with a coordinate column the table instead collapses to three
columns (`coincident_column_collapses_schema`). -/
theorem four_column_schema :
    (∀ (names : List String) (w : Nat) (col : ColSel) (t : String)
        (sch : List (String × Option Dtype)),
      names.Nodup →
      loadTrackSchema (some names) w col = .ok (t, sch) →
      t ≠ "chrom" → t ≠ "start" → t ≠ "end" →
      sch.Perm [("chrom", some Dtype.str), ("start", some Dtype.int64),
        ("end", some Dtype.int64), (t, some Dtype.float64)])
    ∧ (∀ (i : Int) (w : Nat), 3 ≤ i → i < (w : Int) →
      loadTrackSchema none w (.idx i)
        = .ok ("ref", [("chrom", some Dtype.str), ("start", some Dtype.int64),
            ("end", some Dtype.int64), ("ref", some Dtype.float64)])) := by
  constructor
  · intro names w col t sch hnd h ht1 ht2 ht3
    cases hr : resolveTrack (some names) col with
    | error e => simp [loadTrackSchema, hr] at h
    | ok p =>
      obtain ⟨t', kw⟩ := p
      have hkw := resolveTrack_header_kwargs hr
      subst hkw
      simp only [loadTrackSchema, hr, Bool.false_eq_true, if_false,
        Option.getD_some] at h
      cases hsh : readSchemaHeader names ["chrom", "start", "end", t']
          (trackDtypes t') with
      | error e => rw [hsh] at h; simp at h
      | ok sch' =>
        rw [hsh] at h
        simp only [Except.ok.injEq, Prod.mk.injEq] at h
        obtain ⟨hts, hss⟩ := h
        rw [hts, hss] at hsh
        rw [readSchemaHeader] at hsh
        by_cases hall : (["chrom", "start", "end", t].all
            (fun c => names.contains c)) = true
        · rw [if_pos hall] at hsh
          simp only [Except.ok.injEq] at hsh
          subst hsh
          have hmem : ∀ c ∈ (["chrom", "start", "end", t] : List String),
              c ∈ names := by
            intro c hc
            exact List.elem_iff.mp (List.all_eq_true.mp hall c hc)
          have hund : (["chrom", "start", "end", t] : List String).Nodup := by
            simp [List.nodup_cons, Ne.symm ht1, Ne.symm ht2, Ne.symm ht3]
          have hperm : (names.filter
                (fun c => (["chrom", "start", "end", t] : List String).contains c)).Perm
              ["chrom", "start", "end", t] := by
            refine (List.perm_ext_iff_of_nodup (hnd.filter _) hund).mpr ?_
            intro a
            simp only [List.mem_filter, List.elem_iff]
            constructor
            · exact fun ha => ha.2
            · exact fun ha => ⟨hmem a ha, ha⟩
          have := hperm.map (fun c => (c, pyDictLookup (trackDtypes t) c))
          simpa [pyDictLookup_chrom ht1, pyDictLookup_start ht2,
            pyDictLookup_end ht3, pyDictLookup_self] using this
        · rw [if_neg hall] at hsh
          exact absurd hsh (by simp)
  · intro i w h3 hw
    have hns := headerless_schema h3 hw
    simp [loadTrackSchema, resolveTrack, hns]

/-- C6, witness: a schema obtained from a concrete header file with a
distinct value column is a permutation of the four typed columns, and a
concrete headerless file with selector three parses to exactly those four
columns. -/
theorem four_column_schema_witness :
    ([("chrom", some Dtype.str), ("start", some Dtype.int64),
        ("end", some Dtype.int64), ("score", some Dtype.float64)]).Perm
      [("chrom", some Dtype.str), ("start", some Dtype.int64),
        ("end", some Dtype.int64), ("score", some Dtype.float64)]
    ∧ loadTrackSchema none 5 (.idx 3)
      = .ok ("ref", [("chrom", some Dtype.str), ("start", some Dtype.int64),
          ("end", some Dtype.int64), ("ref", some Dtype.float64)]) :=
  ⟨four_column_schema.1 ["chrom", "start", "end", "score"] 4 (.name "score")
      "score"
      [("chrom", some Dtype.str), ("start", some Dtype.int64),
        ("end", some Dtype.int64), ("score", some Dtype.float64)]
      (by decide) rfl (by decide) (by decide) (by decide),
   four_column_schema.2 3 5 (by decide) (by decide)⟩

/-! ### C3: regions together with trans contacts -/

theorem loadStage_ok_of_trackLoadSucceeds {V : Type} (a : Args V)
    (h : trackLoadSucceeds a = true) : ∃ pr, loadStage a = .ok pr := by
  unfold trackLoadSucceeds at h
  cases hrt : a.referenceTrack with
  | none =>
    exact ⟨(.bare a.cool.bins, none), by simp [loadStage, hrt]⟩
  | some t =>
    rw [hrt] at h
    cases hls : loadTrackSchema t.sniffedHeader t.fileWidth t.col with
    | error e => simp [hls, exceptOk] at h
    | ok pr =>
      obtain ⟨tname, sch⟩ := pr
      exact ⟨(.merged (mergeLeft a.cool.bins t.rows), some tname),
        by simp [loadStage, hrt, hls, mergeTrackWithBins]⟩

/-- Concrete reference-track argument that fails validation: a headerless
file with a name selector. -/
def badTrackSpec : TrackSpec Int :=
  { sniffedHeader := none, fileWidth := 4, col := .name "score", rows := [] }

/-- Concrete invocation supplying both a regions file and trans contacts,
but also the invalid reference track. -/
def badTrackTransArgs : Args Int :=
  { cool := { bins := [⟨"chr1", 0, 10⟩], chromsizes := fun _ => 10 },
    referenceTrack := some badTrackSpec,
    regions := some { ncols := 3, rows := [] },
    contactType := .trans, nEigs := 3, verbose := false,
    outPref := "o", bigwig := false }

/-- C3, counterexample: an invocation that supplies both `--regions` and
`--contact-type trans` but whose reference track is invalid fails with the
track loader's `BadParameter` error, not with a `NotImplementedError`: the
track stage runs first, so the claim's universally quantified statement is
false. -/
theorem regions_trans_not_always_notimplemented :
    run badTrackTransArgs
      = .error (.badParameter
        "No header found. Cannot find score column without a header.")
    ∧ ∀ m, run badTrackTransArgs ≠ .error (.notImplemented m) := by
  refine ⟨rfl, ?_⟩
  intro m h
  rw [show run badTrackTransArgs = .error (.badParameter
    "No header found. Cannot find score column without a header.") from rfl] at h
  simp at h

/-- C3 (amended): supplying `--regions` together with `--contact-type trans`
always makes the command fail before either eigen-decomposition routine is
reached; whenever the reference-track stage succeeds (in particular whenever
no reference track is given) the raised error is the `NotImplementedError`
for regions with trans contacts, while an invalid reference track fails
earlier with its own error. -/
theorem regions_trans_always_fail {V : Type} (a : Args V)
    (h1 : a.regions.isSome = true) (h2 : a.contactType = .trans) :
    (∃ e, run a = .error e)
    ∧ (trackLoadSucceeds a = true
      → run a = .error (.notImplemented regionsTransMsg)) := by
  cases hl : loadStage a with
  | error e =>
    constructor
    · exact ⟨e, by simp [run, hl]⟩
    · intro hts
      obtain ⟨pr, hok⟩ := loadStage_ok_of_trackLoadSucceeds a hts
      rw [hl] at hok
      exact absurd hok (by simp)
  | ok pr =>
    obtain ⟨track, tname⟩ := pr
    have hreg : regionsStage a track = .error (.notImplemented regionsTransMsg) := by
      cases hr : a.regions with
      | none => rw [hr] at h1; simp at h1
      | some rf => simp [regionsStage, hr, h2]
    have hrun : run a = .error (.notImplemented regionsTransMsg) := by
      simp [run, hl, hreg]
    exact ⟨⟨_, hrun⟩, fun _ => hrun⟩

/-- Concrete invocation with regions, trans contacts and no reference track. -/
def transRegionsArgs : Args Int :=
  { cool := { bins := [⟨"chr1", 0, 10⟩], chromsizes := fun _ => 10 },
    referenceTrack := none,
    regions := some { ncols := 3, rows := [] },
    contactType := .trans, nEigs := 3, verbose := false,
    outPref := "o", bigwig := false }

/-- C3, witness for the amended theorem: with no reference track the command
fails with exactly the not-implemented error. -/
theorem regions_trans_witness :
    run transRegionsArgs = .error (.notImplemented regionsTransMsg) :=
  (regions_trans_always_fail transRegionsArgs rfl rfl).2 rfl

/-! ### C7: default regions from the track's chromosomes -/

theorem map_chrom_defaultRegions (tc : List String) (cs : String → Int) :
    (defaultRegions tc cs).map RegionRow.chrom = tc := by
  induction tc with
  | nil => rfl
  | cons c cl ih =>
    simpa [defaultRegions, parseRegionsNames] using ih

/-- C7: for every invocation without a regions file that reaches the
analysis, the regions table is built from exactly the distinct chromosomes
of the track — one region per chromosome, no repeats — each spanning the
full chromosome `[0, chromsize)` with its name equal to the chromosome. -/
theorem default_regions_from_track {V : Type} (a : Args V) (res : RunResult V)
    (h1 : a.regions = none) (h2 : run a = .ok res) :
    (∀ r ∈ res.cisRegionsTable,
      r.start = 0 ∧ r.end_ = a.cool.chromsizes r.chrom ∧ r.name = some r.chrom)
    ∧ (res.cisRegionsTable.map RegionRow.chrom).Nodup
    ∧ (∀ c, c ∈ res.cisRegionsTable.map RegionRow.chrom
      ↔ c ∈ trackChromsList res.call.track) := by
  cases hl : loadStage a with
  | error e => simp [run, hl] at h2
  | ok pr =>
    obtain ⟨track, tname⟩ := pr
    cases hr : regionsStage a track with
    | error e => simp [run, hl, hr] at h2
    | ok rtbl =>
      simp only [run, hl, hr, Except.ok.injEq] at h2
      have hrt : rtbl
          = defaultRegions (uniqueList (trackChromsList track)) a.cool.chromsizes := by
        have : regionsStage a track
            = .ok (defaultRegions (uniqueList (trackChromsList track))
              a.cool.chromsizes) := by
          simp [regionsStage, h1]
        rw [hr] at this
        exact Except.ok.inj this
      have hres1 : res.cisRegionsTable = rtbl := by
        rw [← h2]
        cases hct : a.contactType <;> simp [dispatch, hct]
      have hres2 : res.call.track = track := by
        rw [← h2]
        cases hct : a.contactType <;> simp [dispatch, hct, EigCall.track]
      rw [hres1, hres2, hrt]
      refine ⟨?_, ?_, ?_⟩
      · intro r hrr
        simp only [defaultRegions, parseRegionsNames, List.map_map,
          List.mem_map, Function.comp] at hrr
        obtain ⟨c, _, rfl⟩ := hrr
        exact ⟨rfl, rfl, rfl⟩
      · rw [map_chrom_defaultRegions]
        exact nodup_uniqueList _
      · intro c
        rw [map_chrom_defaultRegions]
        exact mem_uniqueList _ c

/-- Concrete invocation without a regions file, whose track repeats one
chromosome over two bins. -/
def wholeChromCool : CoolerData :=
  { bins := [⟨"chr2", 0, 50⟩, ⟨"chr2", 50, 100⟩], chromsizes := fun _ => 100 }

def wholeChromArgs : Args Int :=
  { cool := wholeChromCool,
    referenceTrack := none, regions := none, contactType := .cis,
    nEigs := 2, verbose := false, outPref := "p", bigwig := false }

/-- The run result of `wholeChromArgs`: one full-chromosome region. -/
def wholeChromRes : RunResult Int :=
  { call := .cisCall (.bare [⟨"chr2", 0, 50⟩, ⟨"chr2", 50, 100⟩])
      [⟨"chr2", 0, 100, some "chr2"⟩] 2 none,
    cisRegionsTable := [⟨"chr2", 0, 100, some "chr2"⟩],
    files := ["p.cis.lam.txt", "p.cis.vecs.tsv"] }

/-- C7, witness at the concrete invocation. -/
theorem default_regions_witness :
    (∀ r ∈ wholeChromRes.cisRegionsTable,
      r.start = 0 ∧ r.end_ = wholeChromArgs.cool.chromsizes r.chrom
        ∧ r.name = some r.chrom)
    ∧ (wholeChromRes.cisRegionsTable.map RegionRow.chrom).Nodup
    ∧ (∀ c, c ∈ wholeChromRes.cisRegionsTable.map RegionRow.chrom
      ↔ c ∈ trackChromsList wholeChromRes.call.track) :=
  default_regions_from_track wholeChromArgs wholeChromRes rfl rfl

/-! ### C8: validation of a supplied regions file -/

/-- C8: processing a supplied regions file with cis contacts raises the
`ValueError` whenever the file's column count is neither three nor four, and
otherwise every retained region's chromosome occurs in the track. -/
theorem region_file_validation {V : Type} (a : Args V) (track : TrackTable V)
    (rf : RegionsFile) (h1 : a.regions = some rf) (h2 : a.contactType = .cis) :
    (rf.ncols ≠ 3 → rf.ncols ≠ 4 →
      regionsStage a track = .error (.valueError regionsNcolsMsg))
    ∧ (∀ tbl, regionsStage a track = .ok tbl →
      ∀ r ∈ tbl, r.chrom ∈ trackChromsList track) := by
  have hne : ¬ (a.contactType = ContactType.trans) := by
    rw [h2]; intro hh; exact ContactType.noConfusion hh
  constructor
  · intro h3 h4
    simp [regionsStage, h1, hne, h3, h4]
  · intro tbl htbl r hr
    simp only [regionsStage, h1] at htbl
    rw [if_neg hne] at htbl
    by_cases hnc : rf.ncols ≠ 3 ∧ rf.ncols ≠ 4
    · rw [if_pos hnc] at htbl
      exact absurd htbl (by simp)
    · rw [if_neg hnc] at htbl
      simp only [Except.ok.injEq] at htbl
      subst htbl
      have hc := List.of_mem_filter hr
      exact (mem_uniqueList _ _).mp (List.elem_iff.mp hc)

/-- Concrete regions file with five columns. -/
def fiveColRegions : RegionsFile := { ncols := 5, rows := [] }

/-- Concrete three-column regions file naming one chromosome of the track. -/
def threeColRegions : RegionsFile :=
  { ncols := 3, rows := [⟨"chr3", 0, 7, none⟩] }

/-- Concrete invocation supplying the five-column regions file. -/
def fiveColArgs : Args Int :=
  { cool := { bins := [⟨"chr3", 0, 7⟩], chromsizes := fun _ => 7 },
    referenceTrack := none, regions := some fiveColRegions,
    contactType := .cis, nEigs := 3, verbose := false,
    outPref := "o", bigwig := false }

/-- Concrete invocation supplying the three-column regions file. -/
def threeColArgs : Args Int :=
  { cool := { bins := [⟨"chr3", 0, 7⟩], chromsizes := fun _ => 7 },
    referenceTrack := none, regions := some threeColRegions,
    contactType := .cis, nEigs := 3, verbose := false,
    outPref := "o", bigwig := false }

/-- The track table used in the C8 witnesses. -/
def chr3Track : TrackTable Int := .bare [⟨"chr3", 0, 7⟩]

/-- C8, witness: the five-column file raises the `ValueError`, and a region
retained from the three-column file lies on a track chromosome. -/
theorem region_file_validation_witness :
    regionsStage fiveColArgs chr3Track = .error (.valueError regionsNcolsMsg)
    ∧ "chr3" ∈ trackChromsList chr3Track :=
  ⟨(region_file_validation fiveColArgs chr3Track fiveColRegions rfl rfl).1
      (by decide) (by decide),
   (region_file_validation threeColArgs chr3Track threeColRegions rfl rfl).2
      [⟨"chr3", 0, 7, none⟩] rfl ⟨"chr3", 0, 7, none⟩ (by decide)⟩

/-! ### C9: output file names -/

theorem run_ok_files {V : Type} {a : Args V} {res : RunResult V}
    (h : run a = .ok res) : res.files = outFiles a := by
  cases hl : loadStage a with
  | error e => simp [run, hl] at h
  | ok pr =>
    obtain ⟨track, tname⟩ := pr
    cases hr : regionsStage a track with
    | error e => simp [run, hl, hr] at h
    | ok rtbl =>
      simp only [run, hl, hr, Except.ok.injEq] at h
      rw [← h]
      cases hct : a.contactType <;> simp [dispatch, hct]

/-- C9: every successful run writes exactly the tab-separated eigenvalue
file `<out>.<ct>.lam.txt` and eigenvector file `<out>.<ct>.vecs.tsv`, and the
bigWig file `<out>.<ct>.bw` is among the written files exactly when the
`--bigwig` flag is set. -/
theorem output_file_names {V : Type} (a : Args V) (res : RunResult V)
    (h : run a = .ok res) :
    res.files
      = [a.outPref ++ "." ++ contactTypeStr a.contactType ++ ".lam.txt",
         a.outPref ++ "." ++ contactTypeStr a.contactType ++ ".vecs.tsv"]
        ++ (if a.bigwig then
          [a.outPref ++ "." ++ contactTypeStr a.contactType ++ ".bw"] else [])
    ∧ ((a.outPref ++ "." ++ contactTypeStr a.contactType ++ ".bw") ∈ res.files
      ↔ a.bigwig = true) := by
  have hf : res.files = outFiles a := run_ok_files h
  refine ⟨by rw [hf]; rfl, ?_⟩
  rw [hf]
  unfold outFiles
  by_cases hb : a.bigwig = true
  · simp [hb]
  · rw [Bool.not_eq_true] at hb
    rw [hb]
    simp only [Bool.false_eq_true, if_false, List.append_nil, iff_false]
    intro hmem
    rcases List.mem_cons.mp hmem with h1 | h1
    · have := congrArg String.length h1
      simp [String.length_append] at this
      exact absurd this (by decide)
    · rcases List.mem_cons.mp h1 with h2 | h2
      · have := congrArg String.length h2
        simp [String.length_append] at this
        exact absurd this (by decide)
      · simp at h2

/-- Concrete successful invocation with the bigwig flag set. -/
def bigwigArgs : Args Int :=
  { cool := { bins := [⟨"c1", 0, 4⟩], chromsizes := fun _ => 4 },
    referenceTrack := none, regions := none, contactType := .cis,
    nEigs := 1, verbose := false, outPref := "w9", bigwig := true }

/-- The run result of `bigwigArgs`. -/
def bigwigRes : RunResult Int :=
  { call := .cisCall (.bare [⟨"c1", 0, 4⟩]) [⟨"c1", 0, 4, some "c1"⟩] 1 none,
    cisRegionsTable := [⟨"c1", 0, 4, some "c1"⟩],
    files := ["w9.cis.lam.txt", "w9.cis.vecs.tsv", "w9.cis.bw"] }

/-- C9, witness at the concrete successful run. -/
theorem output_file_names_witness :
    bigwigRes.files
      = [bigwigArgs.outPref ++ "." ++ contactTypeStr bigwigArgs.contactType
          ++ ".lam.txt",
         bigwigArgs.outPref ++ "." ++ contactTypeStr bigwigArgs.contactType
          ++ ".vecs.tsv"]
        ++ (if bigwigArgs.bigwig then
          [bigwigArgs.outPref ++ "." ++ contactTypeStr bigwigArgs.contactType
            ++ ".bw"] else [])
    ∧ ((bigwigArgs.outPref ++ "." ++ contactTypeStr bigwigArgs.contactType
        ++ ".bw") ∈ bigwigRes.files
      ↔ bigwigArgs.bigwig = true) :=
  output_file_names bigwigArgs bigwigRes rfl
